import Mathlib

/-!
Shallow embedding of the Activity Booking backend
(`src/routes/auth.routes.js`, `src/routes/activity.routes.js`,
`src/routes/booking.routes.js`).  The document store is modelled as
in-memory lists of records inside an `AppState`; each route handler
becomes a pure function from the state (plus request data) to the next
state and an HTTP-level result.  Mongo-style `findOne`/`findById` become
`List.find?`, and mutating the single found document followed by `save()`
becomes `updateFirst`.
-/

/-- Role of a user, assigned at registration (`auth.routes.js` line 53). -/
inductive Role where
  | user
  | admin
  deriving Repr, DecidableEq

/-- Booking lifecycle status enum (spec §3: pending, confirmed, cancelled). -/
inductive BookingStatus where
  | pending
  | confirmed
  | cancelled
  deriving Repr, DecidableEq

/-- Payment status enum (spec §3: pending, paid, refunded). -/
inductive PaymentStatus where
  | pending
  | paid
  | refunded
  deriving Repr, DecidableEq

/-- A schedule slot embedded in an activity.  Dates are compared by their
ISO string in the source (`slot.date.toISOString()`), so we carry the date
as a string.  `availableSpots` is an integer mutated by `-= 1` / `+= n`. -/
structure ScheduleSlot where
  date : String
  startTime : String
  endTime : String
  availableSpots : Int
  deriving Repr, DecidableEq

/-- An activity record with its embedded ordered slot list. -/
structure Activity where
  id : Nat
  title : String
  description : String
  price : Int
  duration : Int
  capacity : Int
  location : String
  isActive : Bool
  schedule : List ScheduleSlot
  deriving Repr, DecidableEq

/-- The denormalized copy of the chosen slot stored on a booking
(`booking.routes.js` lines 74-78). -/
structure BookingSchedule where
  date : String
  startTime : String
  endTime : String
  deriving Repr, DecidableEq

/-- A booking record referencing a user and an activity by id. -/
structure Booking where
  id : Nat
  user : Nat
  activity : Nat
  schedule : BookingSchedule
  numberOfParticipants : Nat
  totalPrice : Int
  status : BookingStatus
  paymentStatus : PaymentStatus
  deriving Repr, DecidableEq

/-- A user record as created at registration. -/
structure User where
  name : String
  email : String
  password : String
  phone : String
  role : Role
  deriving Repr, DecidableEq

/-- The whole document store: users, activities, bookings, plus the id the
store will give to the next inserted booking. -/
structure AppState where
  users : List User
  activities : List Activity
  bookings : List Booking
  nextBookingId : Nat
  deriving Repr, DecidableEq

/-- Replace the first element satisfying `p` by `f` of it, leaving every
other element alone.  This is the effect of mutating the single document
returned by a Mongo-style `find`/`findOne` and then saving it. -/
def updateFirst (p : α → Bool) (f : α → α) : List α → List α
  | [] => []
  | x :: xs => if p x then f x :: xs else x :: updateFirst p f xs

/-- Predicate of `Activity.findOne with the given id and isActive true`
(`booking.routes.js` line 56). -/
def activeWithId (aid : Nat) (a : Activity) : Bool :=
  a.id == aid && a.isActive

/-- Predicate of `slot.availableSpots > 0` (`booking.routes.js` line 62). -/
def slotAvailable (s : ScheduleSlot) : Bool :=
  decide (0 < s.availableSpots)

/-- Effect of `scheduleSlot.availableSpots -= 1` (`booking.routes.js` line 86). -/
def decSpots (s : ScheduleSlot) : ScheduleSlot :=
  { s with availableSpots := s.availableSpots - 1 }

/-- Result of `POST /bookings` with its HTTP status code. -/
inductive ReserveResult where
  | reserved (b : Booking)
  | notFound
  | noAvailability
  deriving Repr, DecidableEq

/-- HTTP status code of each `POST /bookings` outcome
(`booking.routes.js` lines 58, 64, 89). -/
def reserveStatus : ReserveResult → Nat
  | .reserved _ => 201
  | .notFound => 404
  | .noAvailability => 400

/-- The Reserve path, `router.post` in `booking.routes.js` lines 41-97:
require an active activity, pick the first slot with spots, persist a
booking snapshotting that slot, decrement the slot, save the activity.
The new booking's `status`/`paymentStatus` defaults (pending/pending) are
modelled from the spec §3, the mongoose booking model not being under
`src/`. -/
def createBooking (st : AppState) (userId activityId : Nat) :
    AppState × ReserveResult :=
  match st.activities.find? (activeWithId activityId) with
  | none => (st, .notFound)
  | some activity =>
    match activity.schedule.find? slotAvailable with
    | none => (st, .noAvailability)
    | some scheduleSlot =>
      let totalPrice := activity.price
      let booking : Booking :=
        { id := st.nextBookingId
          user := userId
          activity := activityId
          schedule :=
            { date := scheduleSlot.date
              startTime := scheduleSlot.startTime
              endTime := scheduleSlot.endTime }
          numberOfParticipants := 1
          totalPrice := totalPrice
          status := .pending
          paymentStatus := .pending }
      ({ st with
          bookings := st.bookings ++ [booking]
          nextBookingId := st.nextBookingId + 1
          activities :=
            updateFirst (activeWithId activityId)
              (fun a => { a with schedule := updateFirst slotAvailable decSpots a.schedule })
              st.activities },
        .reserved booking)

/-- Result of `PATCH /bookings/:id/cancel`.  `serverError` is the uncaught
throw when `Activity.findById` returns null and line 122 dereferences it;
the booking was already saved as cancelled at that point. -/
inductive CancelResult where
  | success
  | notFound
  | alreadyCancelled
  | serverError
  deriving Repr, DecidableEq

/-- HTTP status code of each cancel outcome
(`booking.routes.js` lines 108, 112, 133, 135). -/
def cancelStatus : CancelResult → Nat
  | .success => 200
  | .notFound => 404
  | .alreadyCancelled => 400
  | .serverError => 500

/-- Predicate of `Booking.findOne with the given id owned by the caller`
(`booking.routes.js` lines 102-105). -/
def ownedBy (bid uid : Nat) (b : Booking) : Bool :=
  b.id == bid && b.user == uid

/-- Predicate of the slot match on cancel (`booking.routes.js` lines
122-126): exact equality of date (via ISO string), startTime, endTime
against the booking's stored snapshot. -/
def slotMatches (bs : BookingSchedule) (s : ScheduleSlot) : Bool :=
  s.date == bs.date && s.startTime == bs.startTime && s.endTime == bs.endTime

/-- Effect of lines 116-117: set status cancelled, paymentStatus refunded. -/
def setCancelled (b : Booking) : Booking :=
  { b with status := .cancelled, paymentStatus := .refunded }

/-- Effect of `scheduleSlot.availableSpots += booking.numberOfParticipants`
(`booking.routes.js` line 129). -/
def addSpots (n : Nat) (s : ScheduleSlot) : ScheduleSlot :=
  { s with availableSpots := s.availableSpots + n }

/-- The user-facing Cancel path, `router.patch` in `booking.routes.js`
lines 100-137: require an owned booking, reject if already cancelled, mark
it cancelled/refunded, then restore spots on the exactly-matching slot of
the linked activity if one still exists (silent no-op otherwise). -/
def cancelBooking (st : AppState) (userId bookingId : Nat) :
    AppState × CancelResult :=
  match st.bookings.find? (ownedBy bookingId userId) with
  | none => (st, .notFound)
  | some booking =>
    if booking.status = .cancelled then
      (st, .alreadyCancelled)
    else
      let bookings1 := updateFirst (ownedBy bookingId userId) setCancelled st.bookings
      match st.activities.find? (fun a => a.id == booking.activity) with
      | none => ({ st with bookings := bookings1 }, .serverError)
      | some activity =>
        match activity.schedule.find? (slotMatches booking.schedule) with
        | none => ({ st with bookings := bookings1 }, .success)
        | some _ =>
          ({ st with
              bookings := bookings1
              activities :=
                updateFirst (fun a => a.id == booking.activity)
                  (fun a =>
                    { a with
                        schedule :=
                          updateFirst (slotMatches booking.schedule)
                            (addSpots booking.numberOfParticipants) a.schedule })
                  st.activities },
            .success)

/-- Allowed strings for `body('status').isIn(...)` (`booking.routes.js` line 143). -/
def validStatusStrings : List String :=
  ["pending", "confirmed", "cancelled"]

/-- Allowed strings for `body('paymentStatus').isIn(...)` (line 144). -/
def validPaymentStrings : List String :=
  ["pending", "paid", "refunded"]

/-- Decode a validated status string into the enum. -/
def parseBookingStatus (s : String) : BookingStatus :=
  if s == "confirmed" then .confirmed
  else if s == "cancelled" then .cancelled
  else .pending

/-- Decode a validated payment-status string into the enum. -/
def parsePaymentStatus (s : String) : PaymentStatus :=
  if s == "paid" then .paid
  else if s == "refunded" then .refunded
  else .pending

/-- Result of the admin `PATCH /bookings/:id/status`. -/
inductive UpdateStatusResult where
  | ok (b : Booking)
  | invalidInput
  | notFoundBooking
  deriving Repr, DecidableEq

/-- HTTP status code of each status-update outcome (lines 150, 163, 166). -/
def updateStatusCode : UpdateStatusResult → Nat
  | .ok _ => 200
  | .invalidInput => 400
  | .notFoundBooking => 404

/-- The admin status-update path, `router.patch` in `booking.routes.js`
lines 140-171: validate both enum strings, then
`Booking.findByIdAndUpdate` setting exactly status and paymentStatus.
No activity is ever read or written on this path. -/
def updateBookingStatus (st : AppState) (bookingId : Nat)
    (status paymentStatus : String) : AppState × UpdateStatusResult :=
  if !(validStatusStrings.contains status && validPaymentStrings.contains paymentStatus) then
    (st, .invalidInput)
  else
    match st.bookings.find? (fun b => b.id == bookingId) with
    | none => (st, .notFoundBooking)
    | some b =>
      let b1 :=
        { b with
            status := parseBookingStatus status
            paymentStatus := parsePaymentStatus paymentStatus }
      ({ st with
          bookings :=
            updateFirst (fun x => x.id == bookingId)
              (fun x =>
                { x with
                    status := parseBookingStatus status
                    paymentStatus := parsePaymentStatus paymentStatus })
              st.bookings },
        .ok b1)

/-- Summary shape returned by `GET /activities`
(`activity.routes.js` lines 12-19): id, title, description, location, and
the FIRST slot's date/time window only (optional chaining when the
schedule is empty). -/
structure ActivitySummary where
  id : Nat
  title : String
  description : String
  location : String
  date : Option String
  time : Option String
  deriving Repr, DecidableEq

/-- Projection of one activity to the listing summary. -/
def summarize (a : Activity) : ActivitySummary :=
  { id := a.id
    title := a.title
    description := a.description
    location := a.location
    date := a.schedule.head?.map (fun s => s.date)
    time := a.schedule.head?.map (fun s => s.startTime ++ " - " ++ s.endTime) }

/-- The listing route `GET /activities` (`activity.routes.js` lines 9-24):
`Activity.find with isActive true` then the summary projection. -/
def listActive (acts : List Activity) : List ActivitySummary :=
  (acts.filter (fun a => a.isActive)).map summarize

/-- The single-record route `GET /activities/:id` (`activity.routes.js`
lines 27-37): `Activity.findById`, full record, 404 when absent. -/
def getById (acts : List Activity) (aid : Nat) : Option Activity :=
  acts.find? (fun a => a.id == aid)

/-- The soft-delete route `DELETE /activities/:id` (`activity.routes.js`
lines 143-159): `findByIdAndUpdate` setting only `isActive := false`;
`true` is the 200 outcome and `false` the 404. -/
def softDelete (st : AppState) (aid : Nat) : AppState × Bool :=
  match getById st.activities aid with
  | none => (st, false)
  | some _ =>
    ({ st with
        activities :=
          updateFirst (fun a => a.id == aid)
            (fun a => { a with isActive := false }) st.activities },
      true)

/-- Whitespace test used by the trim sanitizer model. -/
def isSpaceChar (c : Char) : Bool :=
  c == ' ' || c == '\t' || c == '\n' || c == '\r'

/-- Modelled from the spec: the `trim()` sanitizer belongs to the external
input-validation library (a black-box collaborator, spec §1); it strips
leading and trailing whitespace from the string field. -/
def trimString (s : String) : String :=
  String.mk (((s.data.dropWhile isSpaceChar).reverse.dropWhile isSpaceChar).reverse)

/-- Validator of `body('title')`: trim, notEmpty, length 3-100
(`activity.routes.js` lines 43-46). -/
def validTitle (s : String) : Bool :=
  let t := trimString s
  !(t == "") && 3 ≤ t.length && t.length ≤ 100

/-- Validator of `body('description')`: trim, notEmpty, length 10-1000
(lines 47-50). -/
def validDescription (s : String) : Bool :=
  let t := trimString s
  !(t == "") && 10 ≤ t.length && t.length ≤ 1000

/-- Validator of `body('price').isFloat min 0` (lines 51-52). -/
def validPrice (p : Int) : Bool :=
  decide (0 ≤ p)

/-- Validator of `body('duration').isInt min 15` (lines 53-54). -/
def validDuration (d : Int) : Bool :=
  decide (15 ≤ d)

/-- Validator of `body('capacity').isInt min 1 max 100` (lines 55-56). -/
def validCapacity (c : Int) : Bool :=
  decide (1 ≤ c) && decide (c ≤ 100)

/-- Validator of `body('location')`: trim, notEmpty, length 3-200
(lines 57-60). -/
def validLocation (s : String) : Bool :=
  let t := trimString s
  !(t == "") && 3 ≤ t.length && t.length ≤ 200

/-- Validator of the HH:MM time pattern at `activity.routes.js` lines
65 and 68, the regex `([0-1]?[0-9]|2[0-3]):[0-5][0-9]` anchored on both
sides: an optional-leading-digit hour 0-23, a colon, minutes 00-59. -/
def validTimeHHMM (s : String) : Bool :=
  match s.data with
  | [h, c, m1, m2] =>
    h.isDigit && c == ':' && ('0' ≤ m1 && m1 ≤ '5') && m2.isDigit
  | [h1, h2, c, m1, m2] =>
    (((h1 == '0' || h1 == '1') && h2.isDigit) ||
      (h1 == '2' && ('0' ≤ h2 && h2 ≤ '3'))) &&
    c == ':' && ('0' ≤ m1 && m1 ≤ '5') && m2.isDigit
  | _ => false

/-- Modelled from the spec: `isISO8601` is the external input-validation
library's date check (a black-box collaborator, spec §1), applied to
`schedule.*.date` at `activity.routes.js` line 63; it is modelled here on
calendar-date inputs `YYYY-MM-DD` with month 01-12 and day 01-31. -/
def isISO8601Date (s : String) : Bool :=
  match s.data with
  | [y1, y2, y3, y4, d1, mo1, mo2, d2, da1, da2] =>
    y1.isDigit && y2.isDigit && y3.isDigit && y4.isDigit &&
    d1 == '-' && d2 == '-' &&
    ((mo1 == '0' && ('1' ≤ mo2 && mo2 ≤ '9')) ||
      (mo1 == '1' && ('0' ≤ mo2 && mo2 ≤ '2'))) &&
    ((da1 == '0' && ('1' ≤ da2 && da2 ≤ '9')) ||
      ((da1 == '1' || da1 == '2') && da2.isDigit) ||
      (da1 == '3' && (da2 == '0' || da2 == '1')))
  | _ => false

/-- A schedule slot as it appears in a request body. -/
structure SlotInput where
  date : String
  startTime : String
  endTime : String
  availableSpots : Int
  deriving Repr, DecidableEq

/-- Validators of `schedule.*.date`, `schedule.*.startTime`,
`schedule.*.endTime`, `schedule.*.availableSpots`
(`activity.routes.js` lines 62-71), applied to one slot. -/
def validSlotInput (s : SlotInput) : Bool :=
  isISO8601Date s.date && validTimeHHMM s.startTime &&
  validTimeHHMM s.endTime && decide (0 ≤ s.availableSpots)

/-- Request body of `POST /activities` (all fields required). -/
structure ActivityCreateInput where
  title : String
  description : String
  price : Int
  duration : Int
  capacity : Int
  location : String
  schedule : List SlotInput
  deriving Repr, DecidableEq

/-- The whole validator chain of `POST /activities`
(`activity.routes.js` lines 42-72); `body('schedule').isArray()` is
inherently satisfied by the typed field. -/
def createActivityValid (f : ActivityCreateInput) : Bool :=
  validTitle f.title && validDescription f.description &&
  validPrice f.price && validDuration f.duration &&
  validCapacity f.capacity && validLocation f.location &&
  f.schedule.all validSlotInput

/-- Request body of `PUT /activities/:id` (all fields optional; a
`schedule` field may be supplied and is written through by
`findByIdAndUpdate(req.params.id, req.body, ...)`). -/
structure ActivityUpdateInput where
  title : Option String
  description : Option String
  price : Option Int
  duration : Option Int
  capacity : Option Int
  location : Option String
  schedule : Option (List SlotInput)
  deriving Repr, DecidableEq

/-- The whole validator chain of `PUT /activities/:id`
(`activity.routes.js` lines 92-117): optional title, description, price,
duration, capacity and location checks.  The chain has no rule for
`schedule` or any `schedule.*` field. -/
def updateActivityValid (f : ActivityUpdateInput) : Bool :=
  f.title.all validTitle && f.description.all validDescription &&
  f.price.all validPrice && f.duration.all validDuration &&
  f.capacity.all validCapacity && f.location.all validLocation

/-- Conversion of a request slot into a stored slot. -/
def slotOfInput (s : SlotInput) : ScheduleSlot :=
  { date := s.date
    startTime := s.startTime
    endTime := s.endTime
    availableSpots := s.availableSpots }

/-- Effect of `findByIdAndUpdate(id, req.body)` on the found activity:
every provided top-level field replaces the stored one (the trim
sanitizers have already rewritten the string fields in `req.body`). -/
def applyActivityUpdate (f : ActivityUpdateInput) (a : Activity) : Activity :=
  { a with
      title := (f.title.map trimString).getD a.title
      description := (f.description.map trimString).getD a.description
      price := f.price.getD a.price
      duration := f.duration.getD a.duration
      capacity := f.capacity.getD a.capacity
      location := (f.location.map trimString).getD a.location
      schedule := (f.schedule.map (fun l => l.map slotOfInput)).getD a.schedule }

/-- Result of `PUT /activities/:id`. -/
inductive UpdateActivityResult where
  | ok (a : Activity)
  | invalidInput
  | notFoundActivity
  deriving Repr, DecidableEq

/-- HTTP status code of each update outcome (lines 121, 132, 135). -/
def updateActivityCode : UpdateActivityResult → Nat
  | .ok _ => 200
  | .invalidInput => 400
  | .notFoundActivity => 404

/-- The update route `PUT /activities/:id` (`activity.routes.js` lines
90-140): run the optional-field validator chain, then
`findByIdAndUpdate` with the request body, 404 when the id is absent. -/
def updateActivity (st : AppState) (aid : Nat) (f : ActivityUpdateInput) :
    AppState × UpdateActivityResult :=
  if !(updateActivityValid f) then
    (st, .invalidInput)
  else
    match getById st.activities aid with
    | none => (st, .notFoundActivity)
    | some a =>
      ({ st with
          activities :=
            updateFirst (fun x => x.id == aid) (applyActivityUpdate f) st.activities },
        .ok (applyActivityUpdate f a))

/-- Result of `POST /auth/register`. -/
inductive RegisterResult where
  | created (u : User)
  | duplicate
  deriving Repr, DecidableEq

/-- HTTP status code of each registration outcome (lines 44, 64). -/
def registerCode : RegisterResult → Nat
  | .created _ => 201
  | .duplicate => 400

/-- The registration handler, `router.post` in `auth.routes.js` lines
32-78: reject a duplicate email, otherwise create the user, with role
admin exactly for the literal email string at line 53.  The
express-validator checks and email normalization run before this handler
in external middleware (spec §1 black box); `email` here is the value the
handler receives. -/
def registerUser (st : AppState) (name email password phone : String) :
    AppState × RegisterResult :=
  match st.users.find? (fun u => u.email == email) with
  | some _ => (st, .duplicate)
  | none =>
    let u : User :=
      { name := name
        email := email
        password := password
        phone := phone
        role := if email == "admin@example.com" then Role.admin else Role.user }
    ({ st with users := st.users ++ [u] }, .created u)

/-- One operation handled by the Reservation Coordinator: a booking
creation or a user cancellation. -/
inductive CoordinatorOp where
  | reserveOp (userId activityId : Nat)
  | cancelOp (userId bookingId : Nat)
  deriving Repr, DecidableEq

/-- State effect of one coordinator operation. -/
def applyOp (st : AppState) : CoordinatorOp → AppState
  | .reserveOp u a => (createBooking st u a).fst
  | .cancelOp u b => (cancelBooking st u b).fst

/-- Sequential execution of a list of coordinator operations. -/
def runOps (st : AppState) : List CoordinatorOp → AppState
  | [] => st
  | op :: ops => runOps (applyOp st op) ops

/-- Invariant of spec §3: every slot of every activity has a non-negative
`availableSpots`. -/
def slotsNonneg (acts : List Activity) : Prop :=
  ∀ a ∈ acts, ∀ s ∈ a.schedule, 0 ≤ s.availableSpots

/-- Fixture slot: one spot left, matching the spec §8 scenario. -/
def demoSlot : ScheduleSlot :=
  { date := "2025-01-01", startTime := "10:00", endTime := "11:00", availableSpots := 1 }

/-- Fixture activity: active, a single one-spot slot. -/
def demoActivity : Activity :=
  { id := 1, title := "Demo", description := "Demo activity.", price := 50, duration := 60,
    capacity := 10, location := "Park", isActive := true, schedule := [demoSlot] }

/-- Fixture store holding just the one activity. -/
def demoState : AppState :=
  { users := [], activities := [demoActivity], bookings := [], nextBookingId := 5 }

/-- The booking the first demo reservation persists. -/
def demoBooking : Booking :=
  { id := 5, user := 7, activity := 1,
    schedule := { date := "2025-01-01", startTime := "10:00", endTime := "11:00" },
    numberOfParticipants := 1, totalPrice := 50,
    status := .pending, paymentStatus := .pending }

/-- Store after the first demo reservation: the slot is at 0 spots. -/
def demoState1 : AppState :=
  { users := []
    activities := [{ demoActivity with schedule := [{ demoSlot with availableSpots := 0 }] }]
    bookings := [demoBooking]
    nextBookingId := 6 }

/-- Store in which booking 5 has been cancelled by its owner. -/
def demoCancelledState : AppState :=
  (cancelBooking demoState1 7 5).fst

/-- A request slot violating every slot validator. -/
def badSlotInput : SlotInput :=
  { date := "not-a-date", startTime := "25:61", endTime := "26:00", availableSpots := -5 }

/-- An update payload providing only an (invalid) schedule. -/
def badUpdatePayload : ActivityUpdateInput :=
  { title := none, description := none, price := none, duration := none,
    capacity := none, location := none, schedule := some [badSlotInput] }

/-- Fixture user created by registering the bootstrap admin email. -/
def adminUser : User :=
  { name := "Alice", email := "admin@example.com", password := "secret1",
    phone := "0123456789", role := Role.admin }

/-- Fixture user created by registering an ordinary email. -/
def normalUser : User :=
  { name := "Bob", email := "bob@example.com", password := "secret1",
    phone := "0123456789", role := Role.user }

/-- Fixture store with no records. -/
def emptyState : AppState :=
  { users := [], activities := [], bookings := [], nextBookingId := 0 }

theorem updateFirst_eq_of_find?_eq_none {p : α → Bool} {f : α → α} {l : List α}
    (h : l.find? p = none) : updateFirst p f l = l := by
  induction l with
  | nil => rfl
  | cons a as ih =>
    by_cases hp : p a = true
    · rw [List.find?_cons_of_pos _ hp] at h
      exact absurd h (by simp)
    · rw [List.find?_cons_of_neg _ hp] at h
      simp only [updateFirst, if_neg hp]
      rw [ih h]

theorem find?_first_spec {p : α → Bool} {l : List α} {x : α}
    (h : l.find? p = some x) :
    ∃ i, ∃ hi : i < l.length, l.get ⟨i, hi⟩ = x ∧ p x = true ∧
      ∀ j, ∀ hj : j < l.length, j < i → p (l.get ⟨j, hj⟩) = false := by
  induction l with
  | nil => simp [List.find?] at h
  | cons a as ih =>
    by_cases hp : p a = true
    · rw [List.find?_cons_of_pos _ hp] at h
      obtain rfl : a = x := by injection h
      exact ⟨0, by simp, rfl, hp, fun j hj hlt => absurd hlt (Nat.not_lt_zero j)⟩
    · rw [List.find?_cons_of_neg _ hp] at h
      obtain ⟨i, hi, hget, hx, hfirst⟩ := ih h
      refine ⟨i + 1, by simpa using Nat.succ_lt_succ hi, by simpa using hget, hx, ?_⟩
      intro j hj hlt
      match j with
      | 0 => simpa using hp
      | Nat.succ j =>
        have hj2 : j < as.length := by simpa using Nat.lt_of_succ_lt_succ hj
        have := hfirst j hj2 (Nat.lt_of_succ_lt_succ hlt)
        simpa using this

theorem updateFirst_eq_set {p : α → Bool} {f : α → α} {l : List α} {x : α} {i : Nat}
    (hi : i < l.length) (hget : l.get ⟨i, hi⟩ = x)
    (hfirst : ∀ j, ∀ hj : j < l.length, j < i → p (l.get ⟨j, hj⟩) = false)
    (hx : p x = true) :
    updateFirst p f l = l.set i (f x) := by
  induction l generalizing i with
  | nil => exact absurd hi (by simp)
  | cons a as ih =>
    match i with
    | 0 =>
      obtain rfl : a = x := by simpa using hget
      simp [updateFirst, hx]
    | Nat.succ i =>
      have h0 : p a = false := hfirst 0 (by simp) (Nat.succ_pos i)
      have hi2 : i < as.length := by simpa using Nat.lt_of_succ_lt_succ hi
      have hget2 : as.get ⟨i, hi2⟩ = x := by simpa using hget
      have hfirst2 : ∀ j, ∀ hj : j < as.length, j < i → p (as.get ⟨j, hj⟩) = false := by
        intro j hj hlt
        have hj3 : j + 1 < (a :: as).length := by simpa using Nat.succ_lt_succ hj
        have := hfirst (j + 1) hj3 (Nat.succ_lt_succ hlt)
        simpa using this
      simp only [updateFirst, List.set_cons_succ]
      rw [if_neg (by simp [h0]), ih hi2 hget2 hfirst2]

theorem find?_updateFirst {p : α → Bool} {f : α → α} {l : List α} {x : α}
    (h : l.find? p = some x) :
    ∃ i, ∃ hi : i < l.length, l.get ⟨i, hi⟩ = x ∧ p x = true ∧
      (∀ j, ∀ hj : j < l.length, j < i → p (l.get ⟨j, hj⟩) = false) ∧
      updateFirst p f l = l.set i (f x) := by
  obtain ⟨i, hi, hget, hx, hfirst⟩ := find?_first_spec h
  exact ⟨i, hi, hget, hx, hfirst, updateFirst_eq_set hi hget hfirst hx⟩

theorem updateFirst_forall {p : α → Bool} {f : α → α} {P : α → Prop} {l : List α}
    (hl : ∀ x ∈ l, P x) (hf : ∀ x ∈ l, p x = true → P x → P (f x)) :
    ∀ x ∈ updateFirst p f l, P x := by
  induction l with
  | nil => simp [updateFirst]
  | cons a as ih =>
    by_cases hp : p a = true
    · simp only [updateFirst, if_pos hp]
      intro x hx
      rcases List.mem_cons.mp hx with rfl | hmem
      · exact hf a (List.mem_cons_self a as) hp (hl a (List.mem_cons_self a as))
      · exact hl x (List.mem_cons_of_mem a hmem)
    · simp only [updateFirst, if_neg hp]
      intro x hx
      rcases List.mem_cons.mp hx with rfl | hmem
      · exact hl x (List.mem_cons_self x as)
      · exact ih (fun y hy => hl y (List.mem_cons_of_mem a hy))
          (fun y hy => hf y (List.mem_cons_of_mem a hy)) x hmem

theorem option_all_eq_true {p : α → Bool} {o : Option α} :
    o.all p = true ↔ ∀ x ∈ o, p x = true := by
  cases o <;> simp [Option.all]

theorem find?_updateFirst_getElem {p : α → Bool} {f : α → α} {l : List α} {x : α}
    (h : l.find? p = some x) :
    ∃ i, l[i]? = some x ∧ p x = true ∧
      (∀ j, j < i → ∀ y, l[j]? = some y → p y = false) ∧
      updateFirst p f l = l.set i (f x) := by
  obtain ⟨i, hi, hget, hx, hfirst, hupd⟩ := find?_updateFirst (f := f) h
  refine ⟨i, ?_, hx, ?_, hupd⟩
  · rw [List.getElem?_eq_getElem hi]
    exact congrArg some ((List.get_eq_getElem l ⟨i, hi⟩).symm.trans hget)
  · intro j hj y hy
    obtain ⟨hjl, hyget⟩ := List.getElem?_eq_some.mp hy
    have := hfirst j hjl hj
    rw [List.get_eq_getElem] at this
    rw [← hyget]
    exact this

/-- C1: a successful Reserve (`POST /bookings`) decrements the chosen
slot's availableSpots by exactly 1 and leaves every other slot, every
other field of the activity, every other activity, and the user list
unchanged, appending exactly the new booking; on the concrete active
activity with a single slot of availableSpots 1, of two sequential booking
requests the first succeeds with 201 leaving the slot at 0 and the second
fails with NoAvailability (400). -/
theorem createBooking_decrements_chosen_slot :
    (∀ (st st2 : AppState) (uid aid : Nat) (b : Booking),
      createBooking st uid aid = (st2, ReserveResult.reserved b) →
      ∃ j a i s, st.activities[j]? = some a ∧ a.schedule[i]? = some s ∧
        0 < s.availableSpots ∧
        st2.activities = st.activities.set j { a with schedule := a.schedule.set i (decSpots s) } ∧
        st2.bookings = st.bookings ++ [b] ∧
        st2.users = st.users) ∧
    createBooking demoState 7 1 = (demoState1, ReserveResult.reserved demoBooking) ∧
    reserveStatus (ReserveResult.reserved demoBooking) = 201 ∧
    demoState1.activities =
      [{ demoActivity with schedule := [{ demoSlot with availableSpots := 0 }] }] ∧
    createBooking demoState1 7 1 = (demoState1, ReserveResult.noAvailability) ∧
    reserveStatus ReserveResult.noAvailability = 400 := by
  refine ⟨?_, by decide, rfl, rfl, by decide, rfl⟩
  intro st st2 uid aid b h
  simp only [createBooking] at h
  split at h
  · exact absurd h (by simp)
  · rename_i activity hfind
    split at h
    · exact absurd h (by simp)
    · rename_i scheduleSlot hslot
      injection h with hst hres
      subst hst
      obtain rfl : _ = b := by injection hres
      obtain ⟨j, hja, hact, hfirstA, hupdA⟩ :=
        find?_updateFirst_getElem
          (f := fun a => { a with schedule := updateFirst slotAvailable decSpots a.schedule }) hfind
      obtain ⟨i, his, hslotp, hfirstS, hupdS⟩ :=
        find?_updateFirst_getElem (f := decSpots) hslot
      refine ⟨j, activity, i, scheduleSlot, hja, his, ?_, ?_, rfl, rfl⟩
      · simpa [slotAvailable] using hslotp
      · show updateFirst (activeWithId aid)
          (fun a => { a with schedule := updateFirst slotAvailable decSpots a.schedule })
          st.activities = _
        rw [hupdA, hupdS]

theorem createBooking_decrements_chosen_slot_witness :
    ∃ j a i s, demoState.activities[j]? = some a ∧ a.schedule[i]? = some s ∧
      0 < s.availableSpots ∧
      demoState1.activities =
        demoState.activities.set j { a with schedule := a.schedule.set i (decSpots s) } ∧
      demoState1.bookings = demoState.bookings ++ [demoBooking] ∧
      demoState1.users = demoState.users :=
  createBooking_decrements_chosen_slot.1 demoState demoState1 7 1 demoBooking (by decide)

/-- C2: whenever the looked-up activity has at least one slot with
availableSpots > 0, Reserve succeeds and selects the first such slot in
the activity's stored array order (every earlier slot has no spots; no
date ordering is involved), and the persisted booking snapshots exactly
that slot's date, startTime and endTime. -/
theorem createBooking_picks_first_available_slot :
    ∀ (st : AppState) (uid aid : Nat) (a : Activity),
      st.activities.find? (activeWithId aid) = some a →
      (∃ s ∈ a.schedule, 0 < s.availableSpots) →
      ∃ (st2 : AppState) (b : Booking) (i : Nat) (s : ScheduleSlot),
        createBooking st uid aid = (st2, ReserveResult.reserved b) ∧
        a.schedule[i]? = some s ∧ 0 < s.availableSpots ∧
        (∀ k, k < i → ∀ y, a.schedule[k]? = some y → ¬ 0 < y.availableSpots) ∧
        b.schedule.date = s.date ∧ b.schedule.startTime = s.startTime ∧
        b.schedule.endTime = s.endTime := by
  intro st uid aid a hfind hex
  have hsome : (a.schedule.find? slotAvailable).isSome = true := by
    rw [List.find?_isSome]
    obtain ⟨s, hs, hpos⟩ := hex
    exact ⟨s, hs, by simpa [slotAvailable] using hpos⟩
  obtain ⟨s0, hslot⟩ := Option.isSome_iff_exists.mp hsome
  obtain ⟨i, his, hp, hfirst, _⟩ := find?_updateFirst_getElem (f := id) hslot
  have hred : createBooking st uid aid =
      ({ st with
          bookings := st.bookings ++
            [⟨st.nextBookingId, uid, aid, ⟨s0.date, s0.startTime, s0.endTime⟩, 1, a.price,
              BookingStatus.pending, PaymentStatus.pending⟩]
          nextBookingId := st.nextBookingId + 1
          activities :=
            updateFirst (activeWithId aid)
              (fun x => { x with schedule := updateFirst slotAvailable decSpots x.schedule })
              st.activities },
        ReserveResult.reserved
          ⟨st.nextBookingId, uid, aid, ⟨s0.date, s0.startTime, s0.endTime⟩, 1, a.price,
            BookingStatus.pending, PaymentStatus.pending⟩) := by
    simp only [createBooking, hfind, hslot]
  refine ⟨_, _, i, s0, hred, his, by simpa [slotAvailable] using hp, ?_, rfl, rfl, rfl⟩
  intro k hk y hy
  have := hfirst k hk y hy
  simpa [slotAvailable] using this

theorem createBooking_picks_first_available_slot_witness :
    ∃ (st2 : AppState) (b : Booking) (i : Nat) (s : ScheduleSlot),
      createBooking demoState 7 1 = (st2, ReserveResult.reserved b) ∧
      demoActivity.schedule[i]? = some s ∧ 0 < s.availableSpots ∧
      (∀ k, k < i → ∀ y, demoActivity.schedule[k]? = some y → ¬ 0 < y.availableSpots) ∧
      b.schedule.date = s.date ∧ b.schedule.startTime = s.startTime ∧
      b.schedule.endTime = s.endTime :=
  createBooking_picks_first_available_slot demoState 7 1 demoActivity (by decide) (by decide)

/-- C5: Reserve fails with NotFound (404) exactly when no stored activity
has the requested id and isActive true, and fails with NoAvailability
(400) exactly when such an activity exists and none of its slots has
availableSpots > 0 (ids assumed unique, as for Mongo documents); in both
failure cases the whole store is unchanged, so no booking is created and
no activity is modified. -/
theorem createBooking_failure_characterization :
    ∀ (st : AppState) (uid aid : Nat),
      (∀ a1 ∈ st.activities, ∀ a2 ∈ st.activities, a1.id = a2.id → a1 = a2) →
      (((createBooking st uid aid).snd = ReserveResult.notFound ↔
          ¬ ∃ a ∈ st.activities, a.id = aid ∧ a.isActive = true) ∧
        ((createBooking st uid aid).snd = ReserveResult.noAvailability ↔
          ∃ a ∈ st.activities, a.id = aid ∧ a.isActive = true ∧
            ∀ s ∈ a.schedule, ¬ 0 < s.availableSpots) ∧
        (((createBooking st uid aid).snd = ReserveResult.notFound ∨
            (createBooking st uid aid).snd = ReserveResult.noAvailability) →
          (createBooking st uid aid).fst = st)) := by
  intro st uid aid huniq
  cases hfind : st.activities.find? (activeWithId aid) with
  | none =>
    have hred : createBooking st uid aid = (st, ReserveResult.notFound) := by
      simp only [createBooking, hfind]
    have hnone := List.find?_eq_none.mp hfind
    refine ⟨?_, ?_, ?_⟩
    · simp only [hred]
      constructor
      · rintro - ⟨a, ha, hid, hact⟩
        exact hnone a ha (by simp [activeWithId, hid, hact])
      · intro _
        trivial
    · simp only [hred]
      constructor
      · intro h
        exact absurd h (by simp)
      · rintro ⟨a, ha, hid, hact, -⟩
        exact absurd (show activeWithId aid a = true by simp [activeWithId, hid, hact])
          (hnone a ha)
    · intro _
      simp only [hred]
  | some a =>
    have hmem := List.mem_of_find?_eq_some hfind
    obtain ⟨hid, hact⟩ : a.id = aid ∧ a.isActive = true := by
      simpa [activeWithId] using List.find?_some hfind
    cases hslot : a.schedule.find? slotAvailable with
    | none =>
      have hred : createBooking st uid aid = (st, ReserveResult.noAvailability) := by
        simp only [createBooking, hfind, hslot]
      have hnoneS := List.find?_eq_none.mp hslot
      refine ⟨?_, ?_, ?_⟩
      · simp only [hred]
        constructor
        · intro h
          exact absurd h (by simp)
        · intro hnex
          exact absurd ⟨a, hmem, hid, hact⟩ hnex
      · simp only [hred]
        constructor
        · intro _
          exact ⟨a, hmem, hid, hact, fun s hs => by simpa [slotAvailable] using hnoneS s hs⟩
        · intro _
          trivial
      · intro _
        simp only [hred]
    | some s =>
      have hsnd : (createBooking st uid aid).snd =
          ReserveResult.reserved
            ⟨st.nextBookingId, uid, aid, ⟨s.date, s.startTime, s.endTime⟩, 1, a.price,
              BookingStatus.pending, PaymentStatus.pending⟩ := by
        simp only [createBooking, hfind, hslot]
      refine ⟨?_, ?_, ?_⟩
      · simp only [hsnd]
        constructor
        · intro h
          exact absurd h (by simp)
        · intro hnex
          exact absurd ⟨a, hmem, hid, hact⟩ hnex
      · simp only [hsnd]
        constructor
        · intro h
          exact absurd h (by simp)
        · rintro ⟨a2, ha2, hid2, hact2, hall⟩
          obtain rfl : a2 = a := huniq a2 ha2 a hmem (hid2.trans hid.symm)
          have hspos : 0 < s.availableSpots := by
            simpa [slotAvailable] using List.find?_some hslot
          exact absurd hspos (hall s (List.mem_of_find?_eq_some hslot))
      · intro hor
        rcases hor with h | h <;> simp [hsnd] at h

theorem createBooking_failure_characterization_witness :
    ((createBooking demoState 7 1).snd = ReserveResult.notFound ↔
        ¬ ∃ a ∈ demoState.activities, a.id = 1 ∧ a.isActive = true) ∧
      ((createBooking demoState 7 1).snd = ReserveResult.noAvailability ↔
        ∃ a ∈ demoState.activities, a.id = 1 ∧ a.isActive = true ∧
          ∀ s ∈ a.schedule, ¬ 0 < s.availableSpots) ∧
      (((createBooking demoState 7 1).snd = ReserveResult.notFound ∨
          (createBooking demoState 7 1).snd = ReserveResult.noAvailability) →
        (createBooking demoState 7 1).fst = demoState) :=
  createBooking_failure_characterization demoState 7 1 (by decide)

/-- C3: user-initiated Cancel on a non-cancelled booking owned by the
caller reports success (200) and rewrites exactly that booking to status
cancelled and paymentStatus refunded (all other booking fields and
bookings unchanged); if the linked activity has a slot exactly matching
the booking's stored (date, startTime, endTime) snapshot, that slot's
availableSpots grows by exactly numberOfParticipants, and if no slot
matches, every activity is left unchanged while the operation still
succeeds. -/
theorem cancelBooking_cancels_and_restores :
    ∀ (st : AppState) (uid bid : Nat) (bk : Booking) (a : Activity),
      st.bookings.find? (ownedBy bid uid) = some bk →
      bk.status ≠ BookingStatus.cancelled →
      st.activities.find? (fun x => x.id == bk.activity) = some a →
      ((cancelBooking st uid bid).snd = CancelResult.success ∧
        cancelStatus (cancelBooking st uid bid).snd = 200 ∧
        (∃ j : Nat, st.bookings[j]? = some bk ∧
          (cancelBooking st uid bid).fst.bookings = st.bookings.set j (setCancelled bk)) ∧
        (a.schedule.find? (slotMatches bk.schedule) = none →
          (cancelBooking st uid bid).fst.activities = st.activities) ∧
        (∀ s : ScheduleSlot, a.schedule.find? (slotMatches bk.schedule) = some s →
          ∃ j i : Nat, st.activities[j]? = some a ∧ a.schedule[i]? = some s ∧
            (cancelBooking st uid bid).fst.activities =
              st.activities.set j
                { a with schedule := a.schedule.set i (addSpots bk.numberOfParticipants s) })) := by
  intro st uid bid bk a hb hnc ha
  obtain ⟨j, hjb, -, -, hupdB⟩ := find?_updateFirst_getElem (f := setCancelled) hb
  cases hslot : a.schedule.find? (slotMatches bk.schedule) with
  | none =>
    have hred : cancelBooking st uid bid =
        ({ st with bookings := updateFirst (ownedBy bid uid) setCancelled st.bookings },
          CancelResult.success) := by
      simp only [cancelBooking, hb]
      rw [if_neg hnc]
      simp only [ha, hslot]
    refine ⟨by simp [hred], by simp [hred, cancelStatus], ⟨j, hjb, ?_⟩, ?_, ?_⟩
    · rw [hred, hupdB]
    · intro _
      rw [hred]
    · intro s hs
      exact absurd hs (by simp)
  | some s0 =>
    have hred : cancelBooking st uid bid =
        ({ st with
            bookings := updateFirst (ownedBy bid uid) setCancelled st.bookings
            activities :=
              updateFirst (fun x => x.id == bk.activity)
                (fun x =>
                  { x with
                      schedule :=
                        updateFirst (slotMatches bk.schedule)
                          (addSpots bk.numberOfParticipants) x.schedule })
                st.activities },
          CancelResult.success) := by
      simp only [cancelBooking, hb]
      rw [if_neg hnc]
      simp only [ha, hslot]
    refine ⟨by simp [hred], by simp [hred, cancelStatus], ⟨j, hjb, ?_⟩, ?_, ?_⟩
    · rw [hred, hupdB]
    · intro h
      exact absurd h (by simp)
    · intro s hs
      obtain rfl : s0 = s := by injection hs
      obtain ⟨ja, hja, -, -, hupdA⟩ :=
        find?_updateFirst_getElem
          (f := fun x =>
            { x with
                schedule :=
                  updateFirst (slotMatches bk.schedule)
                    (addSpots bk.numberOfParticipants) x.schedule }) ha
      obtain ⟨i, his, -, -, hupdS⟩ :=
        find?_updateFirst_getElem (f := addSpots bk.numberOfParticipants) hslot
      refine ⟨ja, i, hja, his, ?_⟩
      rw [hred]
      show updateFirst (fun x => x.id == bk.activity) _ st.activities = _
      rw [hupdA, hupdS]

theorem cancelBooking_cancels_and_restores_witness :
    (cancelBooking demoState1 7 5).snd = CancelResult.success ∧
      cancelStatus (cancelBooking demoState1 7 5).snd = 200 ∧
      (∃ j : Nat, demoState1.bookings[j]? = some demoBooking ∧
        (cancelBooking demoState1 7 5).fst.bookings =
          demoState1.bookings.set j (setCancelled demoBooking)) ∧
      (({ demoActivity with
          schedule := [{ demoSlot with availableSpots := 0 }] } : Activity).schedule.find?
            (slotMatches demoBooking.schedule) = none →
        (cancelBooking demoState1 7 5).fst.activities = demoState1.activities) ∧
      (∀ s : ScheduleSlot,
        ({ demoActivity with
            schedule := [{ demoSlot with availableSpots := 0 }] } : Activity).schedule.find?
              (slotMatches demoBooking.schedule) = some s →
        ∃ j i : Nat,
          demoState1.activities[j]? =
            some { demoActivity with schedule := [{ demoSlot with availableSpots := 0 }] } ∧
          ({ demoActivity with
              schedule := [{ demoSlot with availableSpots := 0 }] } : Activity).schedule[i]? =
            some s ∧
          (cancelBooking demoState1 7 5).fst.activities =
            demoState1.activities.set j
              { demoActivity with
                  schedule :=
                    ({ demoActivity with
                        schedule :=
                          [{ demoSlot with availableSpots := 0 }] } : Activity).schedule.set i
                      (addSpots demoBooking.numberOfParticipants s) }) :=
  cancelBooking_cancels_and_restores demoState1 7 5 demoBooking
    { demoActivity with schedule := [{ demoSlot with availableSpots := 0 }] }
    (by decide) (by decide) (by decide)

/-- C4: Cancel on a booking whose status is already cancelled fails with
AlreadyCancelled (400) and returns the store completely unchanged: no
booking field and no slot's availableSpots on any activity is touched, so
repeated cancels are idempotent after the first. -/
theorem cancelBooking_alreadyCancelled_noop :
    ∀ (st : AppState) (uid bid : Nat) (bk : Booking),
      st.bookings.find? (ownedBy bid uid) = some bk →
      bk.status = BookingStatus.cancelled →
      cancelBooking st uid bid = (st, CancelResult.alreadyCancelled) ∧
      cancelStatus CancelResult.alreadyCancelled = 400 := by
  intro st uid bid bk hb hc
  constructor
  · simp only [cancelBooking, hb]
    rw [if_pos hc]
  · rfl

theorem cancelBooking_alreadyCancelled_noop_witness :
    cancelBooking demoCancelledState 7 5 = (demoCancelledState, CancelResult.alreadyCancelled) ∧
    cancelStatus CancelResult.alreadyCancelled = 400 :=
  cancelBooking_alreadyCancelled_noop demoCancelledState 7 5 (setCancelled demoBooking)
    (by decide) (by decide)

/-- C6: the admin status-update path never touches any activity (so no
ScheduleSlot's availableSpots changes, for every input including
status "cancelled"), never touches users, leaves the whole store unchanged
on validation failure or unknown id, and on success rewrites exactly the
targeted booking, changing only its status and paymentStatus fields. -/
theorem updateBookingStatus_frame :
    ∀ (st : AppState) (bid : Nat) (status payment : String),
      (updateBookingStatus st bid status payment).fst.activities = st.activities ∧
      (updateBookingStatus st bid status payment).fst.users = st.users ∧
      (((updateBookingStatus st bid status payment).snd = UpdateStatusResult.invalidInput ∨
          (updateBookingStatus st bid status payment).snd = UpdateStatusResult.notFoundBooking) →
        (updateBookingStatus st bid status payment).fst = st) ∧
      (∀ b : Booking,
        (updateBookingStatus st bid status payment).snd = UpdateStatusResult.ok b →
        ∃ (j : Nat) (bk : Booking), st.bookings[j]? = some bk ∧ bk.id = bid ∧
          b = { bk with
                  status := parseBookingStatus status
                  paymentStatus := parsePaymentStatus payment } ∧
          (updateBookingStatus st bid status payment).fst.bookings = st.bookings.set j b) := by
  intro st bid status payment
  by_cases hval : (validStatusStrings.contains status &&
      validPaymentStrings.contains payment) = true
  · cases hfindb : st.bookings.find? (fun b => b.id == bid) with
    | none =>
      have hred : updateBookingStatus st bid status payment =
          (st, UpdateStatusResult.notFoundBooking) := by
        obtain ⟨hm1, hm2⟩ : status ∈ validStatusStrings ∧ payment ∈ validPaymentStrings := by
          simpa using hval
        simp [updateBookingStatus, hm1, hm2, hfindb]
      refine ⟨by rw [hred], by rw [hred], fun _ => by rw [hred], ?_⟩
      intro b hb
      rw [hred] at hb
      exact absurd hb (by simp)
    | some b0 =>
      have hred : updateBookingStatus st bid status payment =
          ({ st with
              bookings :=
                updateFirst (fun x => x.id == bid)
                  (fun x =>
                    { x with
                        status := parseBookingStatus status
                        paymentStatus := parsePaymentStatus payment })
                  st.bookings },
            UpdateStatusResult.ok
              { b0 with
                  status := parseBookingStatus status
                  paymentStatus := parsePaymentStatus payment }) := by
        obtain ⟨hm1, hm2⟩ : status ∈ validStatusStrings ∧ payment ∈ validPaymentStrings := by
          simpa using hval
        simp [updateBookingStatus, hm1, hm2, hfindb]
      refine ⟨by rw [hred], by rw [hred], ?_, ?_⟩
      · intro hor
        rcases hor with h | h <;> rw [hred] at h <;> exact absurd h (by simp)
      · intro b hb
        rw [hred] at hb
        obtain rfl : _ = b := by injection hb
        obtain ⟨j, hjb, hp, -, hupd⟩ :=
          find?_updateFirst_getElem
            (f := fun x =>
              { x with
                  status := parseBookingStatus status
                  paymentStatus := parsePaymentStatus payment }) hfindb
        refine ⟨j, b0, hjb, by simpa using hp, rfl, ?_⟩
        rw [hred]
        exact hupd
  · have hval2 : (validStatusStrings.contains status &&
        validPaymentStrings.contains payment) = false := by
      simpa using hval
    have hred : updateBookingStatus st bid status payment =
        (st, UpdateStatusResult.invalidInput) := by
      simp only [updateBookingStatus]
      rw [if_pos (show (!(validStatusStrings.contains status &&
          validPaymentStrings.contains payment)) = true by rw [hval2]; rfl)]
    refine ⟨by rw [hred], by rw [hred], fun _ => by rw [hred], ?_⟩
    intro b hb
    rw [hred] at hb
    exact absurd hb (by simp)

theorem updateBookingStatus_frame_witness :
    (updateBookingStatus demoState1 5 "cancelled" "refunded").fst.activities =
        demoState1.activities ∧
      (updateBookingStatus demoState1 5 "cancelled" "refunded").fst.users = demoState1.users ∧
      (((updateBookingStatus demoState1 5 "cancelled" "refunded").snd =
            UpdateStatusResult.invalidInput ∨
          (updateBookingStatus demoState1 5 "cancelled" "refunded").snd =
            UpdateStatusResult.notFoundBooking) →
        (updateBookingStatus demoState1 5 "cancelled" "refunded").fst = demoState1) ∧
      (∀ b : Booking,
        (updateBookingStatus demoState1 5 "cancelled" "refunded").snd =
          UpdateStatusResult.ok b →
        ∃ (j : Nat) (bk : Booking), demoState1.bookings[j]? = some bk ∧ bk.id = 5 ∧
          b = { bk with
                  status := parseBookingStatus "cancelled"
                  paymentStatus := parsePaymentStatus "refunded" } ∧
          (updateBookingStatus demoState1 5 "cancelled" "refunded").fst.bookings =
            demoState1.bookings.set j b) :=
  updateBookingStatus_frame demoState1 5 "cancelled" "refunded"

/-- C7 (counterexample): the update route's validator chain has no rule
for schedule slots.  The payload providing only a schedule whose single
slot fails every slot constraint (non-ISO date, times outside the HH:MM
pattern, negative availableSpots) passes update validation, while the
same slot list is rejected by create validation on an otherwise valid
activity; the update is applied and stores the invalid slot. -/
theorem updateActivity_skips_slot_validation_counterexample :
    validSlotInput badSlotInput = false ∧
    updateActivityValid badUpdatePayload = true ∧
    createActivityValid
      { title := demoActivity.title
        description := demoActivity.description
        price := demoActivity.price
        duration := demoActivity.duration
        capacity := demoActivity.capacity
        location := demoActivity.location
        schedule := [badSlotInput] } = false ∧
    (updateActivity demoState 1 badUpdatePayload).snd =
      UpdateActivityResult.ok { demoActivity with schedule := [slotOfInput badSlotInput] } ∧
    (updateActivity demoState 1 badUpdatePayload).fst.activities =
      [{ demoActivity with schedule := [slotOfInput badSlotInput] }] := by
  refine ⟨?_, ?_, ?_, ?_, ?_⟩ <;> decide

/-- C7 (amended): activity update enforces the same per-field constraints
as create for title, description, price, duration, capacity and location
whenever the field is provided (all fields optional), performs no
validation at all on a provided schedule, and returns not-found when the
id is absent (for a payload passing validation). -/
theorem updateActivity_validation_amended :
    ∀ (st : AppState) (aid : Nat) (f : ActivityUpdateInput),
      (updateActivityValid f = true ↔
        ((∀ t ∈ f.title, validTitle t = true) ∧
          (∀ d ∈ f.description, validDescription d = true) ∧
          (∀ p ∈ f.price, validPrice p = true) ∧
          (∀ d ∈ f.duration, validDuration d = true) ∧
          (∀ c ∈ f.capacity, validCapacity c = true) ∧
          (∀ l ∈ f.location, validLocation l = true))) ∧
      (∀ sched : Option (List SlotInput),
        updateActivityValid { f with schedule := sched } = updateActivityValid f) ∧
      (getById st.activities aid = none → updateActivityValid f = true →
        updateActivity st aid f = (st, UpdateActivityResult.notFoundActivity)) := by
  intro st aid f
  refine ⟨?_, fun _ => rfl, ?_⟩
  · simp [updateActivityValid, option_all_eq_true, and_assoc]
  · intro hid hval
    simp only [updateActivity]
    rw [if_neg (by simp [hval])]
    simp only [hid]

theorem updateActivity_validation_amended_witness :
    updateActivityValid badUpdatePayload = true ∧
    getById demoState.activities 99 = none ∧
    updateActivity demoState 99 badUpdatePayload =
      (demoState, UpdateActivityResult.notFoundActivity) :=
  ⟨by decide, by decide,
    (updateActivity_validation_amended demoState 99 badUpdatePayload).2.2
      (by decide) (by decide)⟩


/-- C8: a successful registration creates a user whose role is admin
exactly when the registered email is the literal string
admin@example.com, and role user for every other email; the created user
carries the given email and is appended to the user list. -/
theorem registerUser_admin_bootstrap :
    ∀ (st st2 : AppState) (name email password phone : String) (u : User),
      registerUser st name email password phone = (st2, RegisterResult.created u) →
      (u.role = Role.admin ↔ email = "admin@example.com") ∧
      u.email = email ∧ st2.users = st.users ++ [u] := by
  intro st st2 name email password phone u h
  simp only [registerUser] at h
  split at h
  · exact absurd h (by simp)
  · injection h with hst hres
    obtain rfl : _ = u := by injection hres
    subst hst
    refine ⟨?_, rfl, rfl⟩
    by_cases he : email = "admin@example.com"
    · simp [he]
    · simp [he]

theorem registerUser_admin_bootstrap_witness :
    ((adminUser.role = Role.admin ↔ "admin@example.com" = "admin@example.com") ∧
      adminUser.email = "admin@example.com" ∧
      ({ emptyState with users := [adminUser] } : AppState).users =
        emptyState.users ++ [adminUser]) ∧
    ((normalUser.role = Role.admin ↔ "bob@example.com" = "admin@example.com") ∧
      normalUser.email = "bob@example.com" ∧
      ({ emptyState with users := [normalUser] } : AppState).users =
        emptyState.users ++ [normalUser]) :=
  ⟨registerUser_admin_bootstrap emptyState { emptyState with users := [adminUser] }
      "Alice" "admin@example.com" "secret1" "0123456789" adminUser (by decide),
    registerUser_admin_bootstrap emptyState { emptyState with users := [normalUser] }
      "Bob" "bob@example.com" "secret1" "0123456789" normalUser (by decide)⟩

theorem find?_set_first {p : α → Bool} {l : List α} {j : Nat} {b : α}
    (hj : j < l.length)
    (hfirst : ∀ k, k < j → ∀ y, l[k]? = some y → p y = false)
    (hb : p b = true) :
    (l.set j b).find? p = some b := by
  induction l generalizing j with
  | nil => exact absurd hj (by simp)
  | cons a as ih =>
    match j with
    | 0 =>
      rw [List.set_cons_zero]
      exact List.find?_cons_of_pos _ hb
    | Nat.succ j =>
      have h0 : p a = false := hfirst 0 (Nat.succ_pos j) a (by simp)
      rw [List.set_cons_succ]
      rw [List.find?_cons_of_neg _ (by simp [h0])]
      refine ih (by simpa using Nat.lt_of_succ_lt_succ hj) ?_
      intro k hk y hy
      exact hfirst (k + 1) (Nat.succ_lt_succ hk) y (by simpa using hy)

/-- C9: soft delete on an existing activity reports success and rewrites
exactly that activity, flipping only its isActive flag to false; bookings
and users are untouched; afterwards (ids being unique) no summary for the
id appears in the listActive listing, while getById still returns the
full record, now inactive. -/
theorem softDelete_frame_and_visibility :
    ∀ (st : AppState) (aid : Nat) (a : Activity),
      getById st.activities aid = some a →
      (st.activities.map (fun x => x.id)).Nodup →
      ((softDelete st aid).snd = true ∧
        (softDelete st aid).fst.bookings = st.bookings ∧
        (softDelete st aid).fst.users = st.users ∧
        (∃ j : Nat, st.activities[j]? = some a ∧
          (softDelete st aid).fst.activities =
            st.activities.set j { a with isActive := false }) ∧
        (∀ summ ∈ listActive (softDelete st aid).fst.activities, summ.id ≠ aid) ∧
        getById (softDelete st aid).fst.activities aid =
          some { a with isActive := false }) := by
  intro st aid a hfind hnodup
  have hred : softDelete st aid =
      ({ st with
          activities :=
            updateFirst (fun x => x.id == aid) (fun x => { x with isActive := false })
              st.activities },
        true) := by
    simp only [softDelete, hfind]
  obtain ⟨j, hja, hp, hfirst, hupd⟩ :=
    find?_updateFirst_getElem (f := fun x => { x with isActive := false }) hfind
  have haid : a.id = aid := by simpa using hp
  obtain ⟨hjlen, hjget⟩ := List.getElem?_eq_some.mp hja
  have hacts : (softDelete st aid).fst.activities =
      st.activities.set j { a with isActive := false } := by
    rw [hred]
    exact hupd
  refine ⟨by rw [hred], by rw [hred], by rw [hred], ⟨j, hja, hacts⟩, ?_, ?_⟩
  · intro summ hmem
    rw [hacts] at hmem
    simp only [listActive] at hmem
    obtain ⟨x, hxmem, rfl⟩ := List.mem_map.mp hmem
    obtain ⟨hxacts, hxactive⟩ := List.mem_filter.mp hxmem
    obtain ⟨⟨k, hk⟩, hget⟩ := List.mem_iff_get.mp hxacts
    rw [List.get_eq_getElem, List.getElem_set] at hget
    intro hxid
    by_cases hjk : j = k
    · rw [if_pos hjk] at hget
      rw [← hget] at hxactive
      simp at hxactive
    · rw [if_neg hjk] at hget
      have hklen : k < st.activities.length := by simpa using hk
      have hjfin : j < (st.activities.map (fun x => x.id)).length := by simpa using hjlen
      have hkfin : k < (st.activities.map (fun x => x.id)).length := by simpa using hklen
      have hgj : (st.activities.map (fun x => x.id)).get ⟨j, hjfin⟩ = aid := by
        rw [List.get_eq_getElem, List.getElem_map, hjget, haid]
      have hgk : (st.activities.map (fun x => x.id)).get ⟨k, hkfin⟩ = aid := by
        rw [List.get_eq_getElem, List.getElem_map, hget]
        simpa [summarize] using hxid
      have := (hnodup.get_inj_iff (i := ⟨j, hjfin⟩) (j := ⟨k, hkfin⟩)).mp
        (hgj.trans hgk.symm)
      exact hjk (by simpa using this)
  · rw [hacts]
    show (st.activities.set j { a with isActive := false }).find? (fun x => x.id == aid) =
      some { a with isActive := false }
    refine find?_set_first hjlen ?_ (by simp [haid])
    intro k hk y hy
    exact hfirst k hk y hy

theorem softDelete_frame_and_visibility_witness :
    (softDelete demoState 1).snd = true ∧
      (softDelete demoState 1).fst.bookings = demoState.bookings ∧
      (softDelete demoState 1).fst.users = demoState.users ∧
      (∃ j : Nat, demoState.activities[j]? = some demoActivity ∧
        (softDelete demoState 1).fst.activities =
          demoState.activities.set j { demoActivity with isActive := false }) ∧
      (∀ summ ∈ listActive (softDelete demoState 1).fst.activities, summ.id ≠ 1) ∧
      getById (softDelete demoState 1).fst.activities 1 =
        some { demoActivity with isActive := false } :=
  softDelete_frame_and_visibility demoState 1 demoActivity (by decide) (by decide)

theorem createBooking_preserves_slotsNonneg (st : AppState) (u aid : Nat)
    (h : slotsNonneg st.activities) :
    slotsNonneg (createBooking st u aid).fst.activities := by
  cases hfind : st.activities.find? (activeWithId aid) with
  | none => simpa [createBooking, hfind] using h
  | some a =>
    cases hslot : a.schedule.find? slotAvailable with
    | none => simpa [createBooking, hfind, hslot] using h
    | some s =>
      have hred : (createBooking st u aid).fst.activities =
          updateFirst (activeWithId aid)
            (fun x => { x with schedule := updateFirst slotAvailable decSpots x.schedule })
            st.activities := by
        simp [createBooking, hfind, hslot]
      rw [hred]
      intro a2 ha2
      refine updateFirst_forall
        (P := fun x : Activity => ∀ s2 ∈ x.schedule, 0 ≤ s2.availableSpots) h ?_ a2 ha2
      intro x _ _ hPx s2 hs2
      refine updateFirst_forall
        (P := fun y : ScheduleSlot => 0 ≤ y.availableSpots) hPx ?_ s2 hs2
      intro y _ hpy _
      have hpos : 0 < y.availableSpots := by simpa [slotAvailable] using hpy
      simp only [decSpots]
      omega

theorem cancelBooking_preserves_slotsNonneg (st : AppState) (u bid : Nat)
    (h : slotsNonneg st.activities) :
    slotsNonneg (cancelBooking st u bid).fst.activities := by
  cases hb : st.bookings.find? (ownedBy bid u) with
  | none => simpa [cancelBooking, hb] using h
  | some bk =>
    by_cases hc : bk.status = BookingStatus.cancelled
    · simpa [cancelBooking, hb, hc] using h
    · cases ha : st.activities.find? (fun x => x.id == bk.activity) with
      | none =>
        have hred : (cancelBooking st u bid).fst.activities = st.activities := by
          simp only [cancelBooking, hb]
          rw [if_neg hc]
          simp [ha]
        rw [hred]
        exact h
      | some a =>
        cases hslot : a.schedule.find? (slotMatches bk.schedule) with
        | none =>
          have hred : (cancelBooking st u bid).fst.activities = st.activities := by
            simp only [cancelBooking, hb]
            rw [if_neg hc]
            simp [ha, hslot]
          rw [hred]
          exact h
        | some s0 =>
          have hred : (cancelBooking st u bid).fst.activities =
              updateFirst (fun x => x.id == bk.activity)
                (fun x =>
                  { x with
                      schedule :=
                        updateFirst (slotMatches bk.schedule)
                          (addSpots bk.numberOfParticipants) x.schedule })
                st.activities := by
            simp only [cancelBooking, hb]
            rw [if_neg hc]
            simp [ha, hslot]
          rw [hred]
          intro a2 ha2
          refine updateFirst_forall
            (P := fun x : Activity => ∀ s2 ∈ x.schedule, 0 ≤ s2.availableSpots) h ?_ a2 ha2
          intro x _ _ hPx s2 hs2
          refine updateFirst_forall
            (P := fun y : ScheduleSlot => 0 ≤ y.availableSpots) hPx ?_ s2 hs2
          intro y _ _ hy
          simp only [addSpots]
          omega

/-- C10: starting from any store in which every schedule slot of every
activity has availableSpots at least 0, every sequence of sequential
Reserve and Cancel operations preserves that bound on every slot: a
Reserve decrements only a slot it found with availableSpots above 0, and
a Cancel only adds the (natural-number) participant count. -/
theorem coordinator_ops_preserve_slotsNonneg :
    ∀ (ops : List CoordinatorOp) (st : AppState),
      slotsNonneg st.activities → slotsNonneg (runOps st ops).activities := by
  intro ops
  induction ops with
  | nil => exact fun st h => h
  | cons op ops ih =>
    intro st h
    refine ih (applyOp st op) ?_
    cases op with
    | reserveOp u aid => exact createBooking_preserves_slotsNonneg st u aid h
    | cancelOp u bid => exact cancelBooking_preserves_slotsNonneg st u bid h

theorem coordinator_ops_preserve_slotsNonneg_witness :
    slotsNonneg
      (runOps demoState
        [CoordinatorOp.reserveOp 7 1, CoordinatorOp.cancelOp 7 5,
          CoordinatorOp.reserveOp 7 1]).activities :=
  coordinator_ops_preserve_slotsNonneg
    [CoordinatorOp.reserveOp 7 1, CoordinatorOp.cancelOp 7 5, CoordinatorOp.reserveOp 7 1]
    demoState (by unfold slotsNonneg; decide)
